import Mathlib

/-!
# Verification of the heron-infra GPU-fleet governance core

A shallow embedding of the decision logic of the heron-infra repository:
the SQLite state layer (`src/scripts/db.py`), the idle-termination policy
(`src/scripts/terminate_idle_instances.py`), the budget enforcement policy
(`src/scripts/enforce_budgets.py`), the reconciliation loop
(`src/scripts/monitor.py`) and the usage reporting query
(`src/scripts/check_usage.py`).

Python floats (timestamps, hours, fractional cents) are modelled as exact
rationals; Python ints as `Nat`/`Int`.  Fallible external calls (SSH
sampling, webhook delivery, the terminate API) are modelled as oracle
parameters.  A handful of database helpers used by the scripts live in a
`utils_db` module that is not part of the repository snapshot; those are
modelled from the spec and carry a doc comment saying so.
-/

namespace HeronInfra

/-- Python `int()` applied to a (real-valued) float: truncation toward zero. -/
def pyInt (x : ℚ) : ℤ :=
  if 0 ≤ x then ⌊x⌋ else ⌈x⌉

/-- Truncation toward zero, landing in `Nat` (the source only truncates
non-negative quantities before storing them in INTEGER columns). -/
def pyIntNat (x : ℚ) : ℕ :=
  (pyInt x).toNat

/-- ASCII lower-casing of one character, as `str.lower` acts on the ASCII
names used for the allowlist marker. -/
def pyCharLower (c : Char) : Char :=
  if 'A' ≤ c && c ≤ 'Z' then Char.ofNat (c.toNat + 32) else c

/-- Does `l` start with `pat`? -/
def charsStart : List Char → List Char → Bool
  | _, [] => true
  | [], _ :: _ => false
  | c :: cs, p :: ps => c == p && charsStart cs ps

/-- Does `l` contain `pat` as a contiguous substring?  Embeds Python's
`pat in s` membership test. -/
def charsContain (pat : List Char) : List Char → Bool
  | [] => pat.isEmpty
  | c :: cs => charsStart (c :: cs) pat || charsContain pat cs

/-- Python `pat in s.lower()` for ASCII `pat`. -/
def lowerContains (s pat : String) : Bool :=
  charsContain pat.data (s.data.map pyCharLower)

/-! ## Data model (schema of `src/scripts/db.py`)

`gpu_samples` rows, `instances` rows, `costs` rows.  The multi-account
variant of the state layer (module `utils_db`, not in the snapshot) adds an
account column on instances, an account-level cost ledger and a
notification-state table; those parts are modelled from the spec (§3
NotificationState, §4.1 State Store, §6 persisted state layout). -/

/-- One row of the `gpu_samples` table. -/
structure Sample where
  machine_id : String
  gpu_index : ℕ
  utilization : ℤ
  timestamp : ℚ
  deriving Repr, DecidableEq

/-- One row of the `storage_samples` table (disk usage; reporting only). -/
structure StorageRow where
  machine_id : String
  mount_point : String
  total_gb : ℚ
  used_gb : ℚ
  available_gb : ℚ
  use_percent : ℕ
  timestamp : ℚ
  deriving Repr, DecidableEq

/-- One row of the `instances` table.  `init_flag` embeds the INTEGER
column `initialized DEFAULT 0`; `account` is the extra column of the
multi-account state layer, modelled from the spec. -/
structure InstRow where
  id : String
  name : Option String
  ip : Option String
  private_ip : Option String
  status : Option String
  hostname : Option String
  region : Option String
  itype : Option String
  gpu_count : ℕ
  hourly_cost_cents : ℕ
  ssh_key_names : List String
  first_seen : ℚ
  last_seen : ℚ
  init_flag : Bool
  account : Option String
  deriving Repr, DecidableEq

/-- One row of the `costs` table (per-key running ledger). -/
structure CostRow where
  ssh_key : String
  total_cents : ℕ
  last_updated : ℚ
  deriving Repr, DecidableEq

/-- The persisted state: the tables of `state.db`.  `account_costs` and
`notif` are the account-level ledger and the notification-state table of
the multi-account layer, modelled from the spec. -/
structure DbState where
  insts : List InstRow
  gpu_samples : List Sample
  storage_samples : List StorageRow
  costs : List CostRow
  account_costs : List CostRow
  notif : List (String × ℕ)
  deriving Repr, DecidableEq

/-- The empty database (freshly created schema). -/
def DbState.empty : DbState :=
  ⟨[], [], [], [], [], []⟩

/-- The instance observation returned by the provider API
(`lambda_api.list_instances`), with the nested `region` / `instance_type`
fields already projected the way `upsert_instance` reads them. -/
structure ApiInstance where
  id : String
  name : Option String
  ip : Option String
  private_ip : Option String
  status : Option String
  hostname : Option String
  region_name : Option String
  itype_name : Option String
  itype_price_cents : ℕ
  itype_gpus : ℕ
  ssh_key_names : List String
  deriving Repr, DecidableEq

/-- Replace the first row with the same primary key, else append
(`INSERT OR REPLACE` on a PRIMARY KEY column). -/
def upsertRow (r : InstRow) : List InstRow → List InstRow
  | [] => [r]
  | x :: xs => if x.id == r.id then r :: xs else x :: upsertRow r xs

/-- `upsert_instance` from `src/scripts/db.py`: preserve `first_seen` and
the init flag of an existing row, overwrite everything else from the
observation, set `last_seen := now`; a new row gets `first_seen := now`
and an unset init flag.  The `account` column is the multi-account
extension, refreshed like the other mutable fields. -/
def upsert_instance (st : DbState) (now : ℚ) (inst : ApiInstance)
    (acct : Option String) : DbState :=
  let existing := st.insts.find? (fun r => r.id == inst.id)
  let fs := match existing with
    | some r => r.first_seen
    | none => now
  let init := match existing with
    | some r => r.init_flag
    | none => false
  let row : InstRow :=
    { id := inst.id
      name := inst.name
      ip := inst.ip
      private_ip := inst.private_ip
      status := inst.status
      hostname := inst.hostname
      region := inst.region_name
      itype := inst.itype_name
      gpu_count := inst.itype_gpus
      hourly_cost_cents := inst.itype_price_cents
      ssh_key_names := inst.ssh_key_names
      first_seen := fs
      last_seen := now
      init_flag := init
      account := acct }
  { st with insts := upsertRow row st.insts }

/-- `mark_initialized` from `src/scripts/db.py`. -/
def mark_init_done (st : DbState) (iid : String) : DbState :=
  { st with insts := st.insts.map (fun r => if r.id == iid then { r with init_flag := true } else r) }

/-- `get_active_instances`: rows with status `active`, optionally filtered
by account (the account filter is the multi-account extension, modelled
from the spec: "list active machines (optionally filtered by account)"). -/
def get_active_instances (st : DbState) (acct : Option String) : List InstRow :=
  st.insts.filter (fun r =>
    r.status == some "active" &&
      match acct with
      | none => true
      | some a => r.account == some a)

/-- `get_uninitialized_instances`: active rows with an unset init flag. -/
def get_uninit_instances (st : DbState) (acct : Option String) : List InstRow :=
  (get_active_instances st acct).filter (fun r => !r.init_flag)

/-- `add_gpu_sample` from `src/scripts/db.py` (the capture timestamp is
`time.time()`, passed here explicitly). -/
def add_gpu_sample (st : DbState) (iid : String) (util : ℤ) (gpu_idx : ℕ)
    (now : ℚ) : DbState :=
  { st with gpu_samples := st.gpu_samples ++ [⟨iid, gpu_idx, util, now⟩] }

/-- `add_storage_sample` (disk usage row; consumed only by reporting). -/
def add_storage_sample (st : DbState) (row : StorageRow) : DbState :=
  { st with storage_samples := st.storage_samples ++ [row] }

/-- `get_gpu_samples_since` from `src/scripts/db.py`:
`WHERE instance_id = ? AND timestamp > ? ORDER BY timestamp`. -/
def insertByTime (s : Sample) : List Sample → List Sample
  | [] => [s]
  | t :: rest => if t.timestamp ≤ s.timestamp then t :: insertByTime s rest else s :: t :: rest

/-- Stable sort by capture timestamp (Python `sorted` with a key, and the
SQL `ORDER BY timestamp`). -/
def sortByTime (l : List Sample) : List Sample :=
  l.foldl (fun acc s => insertByTime s acc) []

def get_gpu_samples_since (st : DbState) (iid : String) (since : ℚ) : List Sample :=
  sortByTime (st.gpu_samples.filter (fun s => s.machine_id == iid && since < s.timestamp))

/-- `update_cost` from `src/scripts/db.py`: additive upsert on the per-key
ledger (`ON CONFLICT DO UPDATE SET total_cents = total_cents + excluded`;
`ssh_key` is the primary key, so at most one row matches). -/
def update_cost : List CostRow → String → ℕ → ℚ → List CostRow
  | [], key, cents, now => [⟨key, cents, now⟩]
  | r :: rs, key, cents, now =>
    if r.ssh_key == key then ⟨r.ssh_key, r.total_cents + cents, now⟩ :: rs
    else r :: update_cost rs key cents now

/-- Ledger total recorded for a key (0 when no row exists, exactly how the
scripts read a missing row). -/
def cost_cents_of (costs : List CostRow) (key : String) : ℕ :=
  ((costs.find? (fun r => r.ssh_key == key)).map (·.total_cents)).getD 0

/-- Modelled from the spec: `update_account_cost` of the multi-account
state layer (`utils_db`, not in the snapshot) — "increment a key's and/or
account's cost ledger by a non-negative amount", same additive-upsert shape
as `update_cost`. -/
def update_account_cost (acc_costs : List CostRow) (acct : String) (cents : ℕ)
    (now : ℚ) : List CostRow :=
  update_cost acc_costs acct cents now

/-- Modelled from the spec: `get_budget_notification` of the
notification-state table (`utils_db`, not in the snapshot) — "read/write
notification state per key/account"; returns the last cost level at which
an alert was sent, if any. -/
def get_budget_notification (notif : List (String × ℕ)) (key : String) : Option ℕ :=
  (notif.find? (fun p => p.1 == key)).map (·.2)

/-- Modelled from the spec: `update_budget_notification` — "persist
`last_notified = total`" for the key (upsert). -/
def update_budget_notification (notif : List (String × ℕ)) (key : String)
    (cents : ℕ) : List (String × ℕ) :=
  if notif.any (fun p => p.1 == key) then
    notif.map (fun p => if p.1 == key then (p.1, cents) else p)
  else
    notif ++ [(key, cents)]

/-- `cleanup_old_samples` from `src/scripts/db.py`:
`DELETE FROM gpu_samples WHERE timestamp < cutoff`. -/
def cleanup_old_samples (st : DbState) (older_than_hours : ℚ) (now : ℚ) : DbState :=
  let cutoff := now - older_than_hours * 3600
  { st with gpu_samples := st.gpu_samples.filter (fun s => !(s.timestamp < cutoff)) }

/-! ## Idle-termination policy (`src/scripts/terminate_idle_instances.py`) -/

/-- The two config knobs of the idle policy (`MIN_RUNTIME_HOURS`,
`IDLE_SHUTDOWN_HOURS`, defaults 4 and 2). -/
structure IdleConfig where
  min_runtime_hours : ℚ
  idle_shutdown_hours : ℚ
  deriving Repr, DecidableEq

/-- One grouped time point produced by `group_samples_by_timestamp`:
`{timestamp, all_zero, gpu_count}`. -/
structure GroupedPoint where
  timestamp : ℚ
  all_zero : Bool
  gpu_count : ℕ
  deriving Repr, DecidableEq

/-- Flush one group: the first (earliest) member gives the timestamp;
`all_zero` iff every utilization in the group reads exactly 0. -/
def mkPoint (first : Sample) (members : List Sample) : GroupedPoint :=
  let utils := (first :: members).map (·.utilization)
  ⟨first.timestamp, utils.all (fun u => u == 0), utils.length⟩

/-- The grouping loop: a sample joins the current group when its timestamp
is within `tol` seconds of the group's first sample, otherwise the group is
flushed and a new one starts. -/
def groupLoop (tol : ℚ) (first : Sample) (members : List Sample) :
    List Sample → List GroupedPoint
  | [] => [mkPoint first members]
  | s :: rest =>
    if s.timestamp - first.timestamp ≤ tol then
      groupLoop tol first (members ++ [s]) rest
    else
      mkPoint first members :: groupLoop tol s [] rest

/-- `group_samples_by_timestamp`: sort by timestamp, then group by
timestamp proximity (tolerance in seconds, 30.0 at the call site). -/
def group_samples_by_timestamp (samples : List Sample) (tol : ℚ) : List GroupedPoint :=
  match sortByTime samples with
  | [] => []
  | s :: rest => groupLoop tol s [] rest

/-- Result of one idle check: `requested` is true when the decision is to
terminate (the terminate API is called, or under `--dry-run` the machine is
reported as WOULD TERMINATE); `ret` is the function's return value. -/
structure IdleCheckResult where
  requested : Bool
  ret : Bool
  deriving Repr, DecidableEq

/-- The local `grouped` of `check_and_terminate_idle`: the machine's
samples newer than `now - IDLE_SHUTDOWN_HOURS`, grouped with the 30-second
tolerance. -/
def idle_window_points (cfg : IdleConfig) (st : DbState) (now : ℚ)
    (inst : InstRow) : List GroupedPoint :=
  group_samples_by_timestamp
    (get_gpu_samples_since st inst.id (now - cfg.idle_shutdown_hours * 3600)) 30

/-- The local `min_samples`: `int(IDLE_SHUTDOWN_HOURS * 60 * 0.8)`, the
80%-of-one-per-minute coverage floor. -/
def idle_min_samples (cfg : IdleConfig) : ℤ :=
  pyInt (cfg.idle_shutdown_hours * 60 * (4 / 5))

/-- `check_and_terminate_idle`: terminate only when (1) the machine has a
truthy `first_seen` and has been running at least `MIN_RUNTIME_HOURS`, and
(2) the grouped time points of the last `IDLE_SHUTDOWN_HOURS` reach the
80%-of-one-per-minute coverage floor and every one of them is all-zero.
`term_ok` is the outcome of the terminate API call. -/
def check_and_terminate_idle (cfg : IdleConfig) (st : DbState) (now : ℚ)
    (inst : InstRow) (dry_run : Bool) (term_ok : Bool) : IdleCheckResult :=
  if inst.first_seen = 0 then ⟨false, false⟩
  else if (now - inst.first_seen) / 3600 < cfg.min_runtime_hours then ⟨false, false⟩
  else if ((idle_window_points cfg st now inst).length : ℤ) < idle_min_samples cfg then
    ⟨false, false⟩
  else if !((idle_window_points cfg st now inst).all (·.all_zero)) then ⟨false, false⟩
  else if dry_run then ⟨true, true⟩
  else ⟨true, term_ok⟩

/-! ## Budget enforcement (`src/scripts/enforce_budgets.py`) -/

/-- The budgets configuration (`budgets.yaml` plus `config.env` defaults):
the per-key limit override (`none` stands for the YAML value "default" /
missing key) and the optional per-key webhook endpoint, along with the
process-wide defaults. -/
structure BudgetsData where
  default_limit : ℕ
  milestone_interval : ℕ
  key_limit : String → Option ℕ
  key_webhook : String → Option String

/-- `get_limit_for_key`: the key's explicit limit, else the default. -/
def get_limit_for_key (d : BudgetsData) (key : String) : ℕ :=
  (d.key_limit key).getD d.default_limit

/-- `get_webhook_for_key`. -/
def get_webhook_for_key (d : BudgetsData) (key : String) : Option String :=
  d.key_webhook key

/-- Python truthiness of the webhook url (`if not webhook_url`). -/
def webhookPresent (w : Option String) : Bool :=
  match w with
  | none => false
  | some u => !(u == "")

/-- `send_discord_notification`: false on a falsy url, else the delivery
outcome (`deliver_ok` stands for the POST succeeding). -/
def send_discord_notification (webhook : Option String) (deliver_ok : Bool) : Bool :=
  if webhookPresent webhook then deliver_ok else false

/-- The milestone bucket of a cost level:
`(cents // interval) * interval` (Python floor division on ints). -/
def milestone_of (interval cents : ℕ) : ℕ :=
  cents / interval * interval

/-- Result of `check_milestone_notification`: the (possibly updated)
notification table and the boolean return value (true iff a milestone
notification was delivered and persisted). -/
structure MilestoneResult where
  notif : List (String × ℕ)
  ret : Bool
  deriving Repr, DecidableEq

/-- `check_milestone_notification`: with a configured webhook, compute the
current and last-notified milestone buckets; on a strict crossing into a
positive bucket, send the notification (over-budget severity when
`spent > limit`) and, only if delivery succeeded, persist
`last_notified := spent`. -/
def check_milestone_notification (d : BudgetsData) (notif : List (String × ℕ))
    (key : String) (spent limit : ℕ) (deliver_ok : Bool) : MilestoneResult :=
  let webhook := get_webhook_for_key d key
  if !(webhookPresent webhook) then ⟨notif, false⟩
  else
    let interval := d.milestone_interval
    let last := (get_budget_notification notif key).getD 0
    let curM := milestone_of interval spent
    let lastM := milestone_of interval last
    if lastM < curM && 0 < curM then
      if send_discord_notification webhook deliver_ok then
        ⟨update_budget_notification notif key spent, true⟩
      else ⟨notif, false⟩
    else ⟨notif, false⟩

/-- `is_overbudget_allowed`: 'overbudget' appears in the display name,
case-insensitively (Python `"overbudget" in (name or "").lower()`). -/
def is_overbudget_allowed (inst : InstRow) : Bool :=
  lowerContains (inst.name.getD "") "overbudget"

/-- Result of `enforce_budget_for_key`: final notification table, whether
the milestone notification was delivered, whether the separate over-budget
notification was attempted (its delivery outcome is ignored by the code),
the ids for which termination was requested, and the returned count of
terminated machines. -/
structure EnforceResult where
  notif : List (String × ℕ)
  milestone_fired : Bool
  overbudget_attempted : Bool
  requested : List String
  ret : ℕ
  deriving Repr, DecidableEq

/-- `enforce_budget_for_key`: run the milestone check first (even under
budget); when over budget and the key has active machines, send the
one-shot over-budget notification if `last_notified < limit` (persisting
`last_notified := spent` whether or not delivery succeeded), then request
termination of every machine of the key whose name lacks the 'overbudget'
marker.  `term_ok` is the per-machine terminate API outcome. -/
def enforce_budget_for_key (d : BudgetsData) (notif : List (String × ℕ))
    (key : String) (spent : ℕ) (active : List InstRow) (deliver_ok : Bool)
    (term_ok : String → Bool) : EnforceResult :=
  let limit := get_limit_for_key d key
  let r1 := check_milestone_notification d notif key spent limit deliver_ok
  if spent ≤ limit then ⟨r1.notif, r1.ret, false, [], 0⟩
  else
    let key_instances := active.filter (fun i => i.ssh_key_names.contains key)
    if key_instances.isEmpty then ⟨r1.notif, r1.ret, false, [], 0⟩
    else
      let webhook := get_webhook_for_key d key
      let last := (get_budget_notification r1.notif key).getD 0
      let ob := webhookPresent webhook && decide (last < limit)
      let notif2 := if ob then update_budget_notification r1.notif key spent else r1.notif
      let targets := key_instances.filter (fun i => !(is_overbudget_allowed i))
      let succeeded := targets.filter (fun i => term_ok i.id)
      ⟨notif2, r1.ret, ob, targets.map (·.id), succeeded.length⟩

/-- Iterated milestone passes: `check_milestone_notification` applied to a
sequence of running totals (one reconciliation pass per total), counting
delivered notifications and threading the persisted state. -/
def run_milestone_passes (d : BudgetsData) (key : String) (limit : ℕ)
    (deliver_ok : Bool) (notif : List (String × ℕ)) :
    List ℕ → ℕ × List (String × ℕ)
  | [] => (0, notif)
  | t :: ts =>
    let r := check_milestone_notification d notif key t limit deliver_ok
    let rest := run_milestone_passes d key limit deliver_ok r.notif ts
    ((if r.ret then 1 else 0) + rest.1, rest.2)

/-! ## Reconciliation loop (`src/scripts/monitor.py`) -/

/-- The loop body of `update_costs`: skip non-active or free instances,
else accumulate the exact `cost_per_minute` into the running account total
and add its `int()` truncation to the first ssh key's ledger. -/
def update_costs_step (now : ℚ) (acc : ℚ × List CostRow) (i : InstRow) :
    ℚ × List CostRow :=
  if !(i.status == some "active") then acc
  else if i.hourly_cost_cents == 0 then acc
  else
    let cpm : ℚ := (i.hourly_cost_cents : ℚ) / 60
    (acc.1 + cpm,
      match i.ssh_key_names with
      | [] => acc.2
      | k :: _ => update_cost acc.2 k (pyIntNat cpm) now)

/-- `update_costs`: for every active instance with a nonzero hourly price,
accrue `cost_per_minute = hourly / 60` — the per-key ledger gets
`int(cost_per_minute)` attributed to the first ssh key (when one exists),
and the account ledger gets `int(total_cost_per_minute)` when the total is
positive.  One invocation is one reconciliation tick. -/
def update_costs (st : DbState) (insts : List InstRow) (acct : String)
    (now : ℚ) : DbState :=
  let folded := insts.foldl (update_costs_step now) (0, st.costs)
  { st with
      costs := folded.2
      account_costs :=
        if 0 < folded.1 then update_account_cost st.account_costs acct (pyIntNat folded.1) now
        else st.account_costs }

/-- External effects of one `process_account` run, as oracles: the GPU
sampling outcome per machine (`[]` = SSH failure, nothing recorded), the
disk sampling outcome, and whether the init script succeeded. -/
structure RemoteOracle where
  gpu_utils : String → List ℤ
  storage : String → List StorageRow
  init_ok : String → Bool

/-- `process_account`: upsert the API observations, read back the active
rows, always accrue their cost (before and independent of any SSH work),
initialize reachable uninitialized machines (marking them only on
success), then sample GPU and disk stats for reachable active machines.
Returns the updated state and the active rows. -/
def process_account (st : DbState) (now : ℚ) (api : List ApiInstance)
    (acct : String) (oracle : RemoteOracle) : DbState × List InstRow :=
  let st1 := api.foldl (fun s i => upsert_instance s now i (some acct)) st
  let active := get_active_instances st1 (some acct)
  let st2 := update_costs st1 active acct now
  let st3 := (get_uninit_instances st2 (some acct)).foldl
    (fun s i =>
      if i.ip.isSome && oracle.init_ok i.id then mark_init_done s i.id else s) st2
  let st4 := active.foldl
    (fun s i =>
      if i.ip.isNone then s
      else
        let s' := ((oracle.gpu_utils i.id).enum).foldl
          (fun t p => add_gpu_sample t i.id p.2 p.1 now) s
        (oracle.storage i.id).foldl (fun t row => add_storage_sample t row) s') st3
  (st4, active)

/-- One configured account together with the outcome of its API call:
`none` embeds `lambda_api.list_instances` raising (the exception the main
loop catches and logs). -/
structure AccountRun where
  name : String
  outcome : Option (List ApiInstance)

/-- Result of one `main` run of the monitor: final state, the accounts
attempted, the accounts whose processing raised, and whether each
post-account step (SSH-config rewrite, JSON export, sample pruning) ran. -/
structure MainResult where
  st : DbState
  attempted : List String
  failed : List String
  ssh_updated : Bool
  exported : Bool
  pruned : Bool

/-- The per-account loop of `main`: each account is processed inside its
own try/except — a raising account is logged and skipped, the loop
continues. -/
def monitor_loop (now : ℚ) : DbState → List String → List String →
    List AccountRun → DbState × List String × List String
  | st, att, fail, [] => (st, att, fail)
  | st, att, fail, a :: rest =>
    match a.outcome with
    | none => monitor_loop now st (att ++ [a.name]) (fail ++ [a.name]) rest
    | some api =>
      let r := process_account st now api a.name
        ⟨fun _ => [], fun _ => [], fun _ => false⟩
      monitor_loop now r.1 (att ++ [a.name]) fail rest

/-- `main` from `src/scripts/monitor.py`: with no configured accounts the
run returns early; otherwise every account is processed in isolation and
the post-account steps (SSH config, JSON export, pruning old samples) run
unconditionally afterwards.  The remote oracles of the per-account runs
are fixed to all-failing here; the loop shape is what the error-handling
claims are about. -/
def monitor_main (st : DbState) (now : ℚ) (accounts : List AccountRun) : MainResult :=
  if accounts.isEmpty then ⟨st, [], [], false, false, false⟩
  else
    let r := monitor_loop now st [] [] accounts
    ⟨cleanup_old_samples r.1 24 now, r.2.1, r.2.2, true, true, true⟩

/-! ## Usage reporting (`src/scripts/check_usage.py`) -/

/-- The attribution key of an instance row as `get_usage_by_key` resolves
it: the first ssh key, else "unknown". -/
def ssh_key_of (i : InstRow) : String :=
  (i.ssh_key_names.head?).getD "unknown"

/-- `SELECT DISTINCT instance_id, timestamp FROM gpu_samples WHERE
timestamp > since`. -/
def distinct_points (st : DbState) (since : ℚ) : List (String × ℚ) :=
  ((st.gpu_samples.filter (fun s => since < s.timestamp)).map
    (fun s => (s.machine_id, s.timestamp))).dedup

/-- Minutes charged to one machine by the usage query: the number of
distinct sample timestamps it has in the window (each sample ≈ 1 minute). -/
def inst_minutes (st : DbState) (since : ℚ) (iid : String) : ℕ :=
  (distinct_points st since).countP (fun p => p.1 == iid)

/-- The `cost_cents` figure of `get_usage_by_key` for one key: summed over
the machines attributed to the key, `hourly_cents * minutes / 60` in exact
(float) arithmetic. -/
def usage_cost_cents (st : DbState) (since : ℚ) (key : String) : ℚ :=
  ((st.insts.filter (fun i => ssh_key_of i == key)).map
    (fun i => (i.hourly_cost_cents : ℚ) * (inst_minutes st since i.id) / 60)).sum

/-! ## Concrete fixtures used by witnesses and counterexamples -/

/-- Idle policy config: minimum runtime 1h, idle threshold 3 minutes
(small window so that fixtures stay small; the policy is uniform in the
config). -/
def cfgW : IdleConfig :=
  ⟨1, 1 / 20⟩

/-- Idle policy config with a 6-minute window (coverage floor 4). -/
def cfg7 : IdleConfig :=
  ⟨1, 1 / 10⟩

/-- An active machine first seen at t=100 ($0.90/h, one GPU, key "k"). -/
def instW : InstRow :=
  ⟨"m1", none, some "10.0.0.1", none, some "active", some "h1", none, none, 1, 90, ["k"], 100, 9000, false, some "acct"⟩

/-- The same machine carrying the allowlist marker in its display name. -/
def instOB : InstRow :=
  { instW with name := some "OVERBUDGET-dev" }

/-- An all-idle GPU sample for machine "m1" at time `t`. -/
def sampW (t : ℚ) : Sample :=
  ⟨"m1", 0, 0, t⟩

/-- State holding three all-idle samples for "m1", one per minute. -/
def stW : DbState :=
  ⟨[instW], [sampW 9850, sampW 9910, sampW 9970], [], [], [], []⟩

/-- Budgets config for milestone fixtures: default limit $500, interval
$20 (cents), a webhook on every key. -/
def dMile : BudgetsData :=
  ⟨50000, 2000, fun _ => none, fun _ => some "wh"⟩

/-- Budgets config for the claimed $100-limit / $20-interval scenario. -/
def dAlice : BudgetsData :=
  ⟨10000, 2000, fun _ => none, fun _ => some "wh"⟩

/-- Budgets config with limit $90 and interval $20. -/
def dNinety : BudgetsData :=
  ⟨9000, 2000, fun _ => none, fun _ => some "wh"⟩

/-- An active machine held by the key "alice". -/
def instAlice : InstRow :=
  { instW with id := "m2", ssh_key_names := ["alice"] }

/-- A fresh provider observation for machine "m1" with every mutable field
changed. -/
def apiW : ApiInstance :=
  ⟨"m1", some "renamed", some "10.0.0.9", none, some "active", some "h2", none, none, 120, 2, ["k2"]⟩

/-- A provider observation of a $0.90/h single-GPU machine on key "k". -/
def api90 : ApiInstance :=
  ⟨"i1", some "n1", some "10.0.0.2", none, some "active", some "h9", none, none, 90, 1, ["k"]⟩

/-- Remote oracle: GPU sampling returns one idle reading for "i1", disk
sampling returns nothing, initialization fails. -/
def oracle90 : RemoteOracle :=
  ⟨fun _ => [0], fun _ => [], fun _ => false⟩

/-- The row `upsert_instance` stores for `api90` on a fresh database at
t=5000. -/
def rowTick : InstRow :=
  ⟨"i1", some "n1", some "10.0.0.2", none, some "active", some "h9", none, none, 1, 90, ["k"], 5000, 5000, false, some "acct"⟩

/-- State after one reconciliation tick on a fresh database: one active
$0.90/h machine, one idle sample, one cent on key "k" and on the account. -/
def stTick : DbState :=
  (process_account DbState.empty 5000 [api90] "acct" oracle90).1

/-- Three configured accounts whose middle one raises on its API call. -/
def accsW : List AccountRun :=
  [⟨"a1", some []⟩, ⟨"a2", none⟩, ⟨"a3", some []⟩]

/-- Evaluation of the grouping on the fixture window: three singleton
all-zero time points (cutoff 9820 for the 3-minute window at now=10000). -/
theorem idle_window_points_W (inst : InstRow) (hid : inst.id = "m1") :
    idle_window_points cfgW stW 10000 inst =
      [⟨9850, true, 1⟩, ⟨9910, true, 1⟩, ⟨9970, true, 1⟩] := by
  unfold idle_window_points get_gpu_samples_since
  rw [hid]
  norm_num [cfgW, stW, sampW, sortByTime, insertByTime, List.foldl, List.filter,
    group_samples_by_timestamp, groupLoop, mkPoint]

/-- Same evaluation for the 6-minute window (cutoff 9640). -/
theorem idle_window_points_W7 :
    idle_window_points cfg7 stW 10000 instW =
      [⟨9850, true, 1⟩, ⟨9910, true, 1⟩, ⟨9970, true, 1⟩] := by
  unfold idle_window_points get_gpu_samples_since
  norm_num [cfg7, stW, instW, sampW, sortByTime, insertByTime, List.foldl, List.filter,
    group_samples_by_timestamp, groupLoop, mkPoint]

/-! ## Claim theorems -/

/-- **C1.** A machine with a truthy `first_seen` whose runtime is at least
the configured minimum, and whose grouped time points in the idle window
are all all-zero with coverage at least 80% of one-sample-per-minute, has
termination requested by the idle check; if the minimum-runtime condition
fails, or some grouped time point in the window is not all-idle, the check
requests nothing and returns false. -/
theorem idle_check_dual_condition (cfg : IdleConfig) (st : DbState) (now : ℚ)
    (inst : InstRow) (dry_run term_ok : Bool)
    (hH : 0 < cfg.idle_shutdown_hours) :
    (inst.first_seen ≠ 0 →
      cfg.min_runtime_hours ≤ (now - inst.first_seen) / 3600 →
      cfg.idle_shutdown_hours * 60 * (4 / 5) ≤ ((idle_window_points cfg st now inst).length : ℚ) →
      (idle_window_points cfg st now inst).all (·.all_zero) = true →
      (check_and_terminate_idle cfg st now inst dry_run term_ok).requested = true) ∧
    ((now - inst.first_seen) / 3600 < cfg.min_runtime_hours →
      check_and_terminate_idle cfg st now inst dry_run term_ok = ⟨false, false⟩) ∧
    ((idle_window_points cfg st now inst).all (·.all_zero) = false →
      check_and_terminate_idle cfg st now inst dry_run term_ok = ⟨false, false⟩) := by
  refine ⟨fun hfs hrt hcov hall => ?_, fun hrt => ?_, fun hall => ?_⟩
  · have hx : (0 : ℚ) ≤ cfg.idle_shutdown_hours * 60 * (4 / 5) := by positivity
    have hmin : idle_min_samples cfg ≤ ((idle_window_points cfg st now inst).length : ℤ) := by
      have h1 : idle_min_samples cfg = ⌊cfg.idle_shutdown_hours * 60 * (4 / 5)⌋ :=
        if_pos hx
      rw [h1]
      calc ⌊cfg.idle_shutdown_hours * 60 * (4 / 5)⌋
          ≤ ⌊(((idle_window_points cfg st now inst).length : ℕ) : ℚ)⌋ := Int.floor_mono hcov
        _ = ((idle_window_points cfg st now inst).length : ℤ) := Int.floor_natCast _
    unfold check_and_terminate_idle
    rw [if_neg hfs, if_neg (not_lt.mpr hrt), if_neg (not_lt.mpr hmin),
      if_neg (by simp [hall])]
    cases dry_run <;> rfl
  · unfold check_and_terminate_idle
    simp [hrt]
  · unfold check_and_terminate_idle
    simp [hall]

/-- Witness for C1: the fixture machine (runtime 2.75h ≥ 1h, three
all-zero time points in the 3-minute window, coverage 3 ≥ 2.4) has
termination requested. -/
theorem idle_check_dual_condition_witness :
    (check_and_terminate_idle cfgW stW 10000 instW true true).requested = true :=
  (idle_check_dual_condition cfgW stW 10000 instW true true (by norm_num [cfgW])).1
    (by norm_num [instW])
    (by norm_num [cfgW, instW])
    (by rw [idle_window_points_W instW rfl]; norm_num [cfgW])
    (by rw [idle_window_points_W instW rfl]; rfl)

/-- **C7.** Below the coverage floor (`int(IDLE_SHUTDOWN_HOURS * 60 * 0.8)`
grouped time points, the code's rendering of 80% of the one-per-minute
expectation), the idle check requests no termination and returns false —
the termination branch is unreachable, whatever the time points contain. -/
theorem idle_check_coverage_gate (cfg : IdleConfig) (st : DbState) (now : ℚ)
    (inst : InstRow) (dry_run term_ok : Bool)
    (h : ((idle_window_points cfg st now inst).length : ℤ) < idle_min_samples cfg) :
    check_and_terminate_idle cfg st now inst dry_run term_ok = ⟨false, false⟩ := by
  unfold check_and_terminate_idle
  simp [h]

/-- Witness for C7: three all-zero time points in a 6-minute window
(coverage floor 4) — insufficient, so no termination is requested even
though every present point is all-zero. -/
theorem idle_check_coverage_gate_witness :
    check_and_terminate_idle cfg7 stW 10000 instW false true = ⟨false, false⟩ ∧
    (idle_window_points cfg7 stW 10000 instW).all (·.all_zero) = true := by
  constructor
  · refine idle_check_coverage_gate cfg7 stW 10000 instW false true ?_
    rw [idle_window_points_W7]
    norm_num [cfg7, idle_min_samples, pyInt]
  · rw [idle_window_points_W7]
    rfl

/-- **C2 counterexample.** A machine whose display name contains the
allowlist marker ("OVERBUDGET-dev") is still terminated by the idle check
when both idle-policy conditions hold: the idle-termination script never
consults the display name. -/
theorem idle_check_terminates_allowlisted :
    is_overbudget_allowed instOB = true ∧
    (check_and_terminate_idle cfgW stW 10000 instOB false true).requested = true := by
  constructor
  · decide
  · unfold check_and_terminate_idle
    rw [idle_window_points_W instOB rfl]
    norm_num [instOB, instW, cfgW, idle_min_samples, pyInt]

/-- **C2 (amended).** The over-budget enforcement never requests
termination of a machine whose display name carries the 'overbudget'
marker — every id it requests belongs to a non-allowlisted active machine
of the key; the idle-termination check, by contrast, is oblivious to the
display name (its outcome is invariant under renaming). -/
theorem allowlist_scope (d : BudgetsData) (notif : List (String × ℕ))
    (key : String) (spent : ℕ) (active : List InstRow) (deliver_ok : Bool)
    (term_ok : String → Bool) :
    (∀ iid ∈ (enforce_budget_for_key d notif key spent active deliver_ok term_ok).requested,
      ∃ i ∈ active, i.id = iid ∧ is_overbudget_allowed i = false ∧
        i.ssh_key_names.contains key = true) ∧
    (∀ (cfg : IdleConfig) (st : DbState) (now : ℚ) (inst : InstRow)
      (n : Option String) (dry_run t_ok : Bool),
      check_and_terminate_idle cfg st now { inst with name := n } dry_run t_ok =
        check_and_terminate_idle cfg st now inst dry_run t_ok) := by
  constructor
  · intro iid hmem
    unfold enforce_budget_for_key at hmem
    by_cases hsp : spent ≤ get_limit_for_key d key
    · rw [if_pos hsp] at hmem
      simp at hmem
    · rw [if_neg hsp] at hmem
      by_cases hemp : (active.filter (fun i => i.ssh_key_names.contains key)).isEmpty
      · rw [if_pos hemp] at hmem
        simp at hmem
      · rw [if_neg hemp] at hmem
        simp only [List.mem_map] at hmem
        obtain ⟨i, hi, rfl⟩ := hmem
        rw [List.mem_filter] at hi
        obtain ⟨hi1, hi2⟩ := hi
        rw [List.mem_filter] at hi1
        exact ⟨i, hi1.1, rfl, by simpa using hi2, hi1.2⟩
  · intro cfg st now inst n dry_run t_ok
    rfl

/-- Witness for the amended C2: in a concrete over-budget pass the single
requested id belongs to a non-allowlisted machine holding the key. -/
theorem allowlist_scope_witness :
    ∃ i ∈ [instW], i.id = "m1" ∧ is_overbudget_allowed i = false ∧
      i.ssh_key_names.contains "k" = true :=
  (allowlist_scope ⟨10000, 2000, fun _ => none, fun _ => none⟩ [] "k" 11500 [instW]
    true (fun _ => true)).1 "m1" (by decide)

/-! ### Milestone / notification-state lemmas -/

/-- Reading back a key right after persisting it returns the stored
level. -/
theorem get_update_budget_notification_self (notif : List (String × ℕ))
    (key : String) (v : ℕ) :
    get_budget_notification (update_budget_notification notif key v) key = some v := by
  unfold update_budget_notification get_budget_notification
  by_cases h : notif.any (fun p => p.1 == key)
  · rw [if_pos h]
    induction notif with
    | nil => simp at h
    | cons p ps ih =>
      by_cases hp : p.1 == key
      · simp [List.find?, hp]
      · have hps : ps.any (fun p => p.1 == key) := by
          simp only [List.any_cons, hp, Bool.false_or] at h
          exact h
        simpa [List.find?, hp] using ih hps
  · rw [if_neg h]
    induction notif with
    | nil => simp [List.find?]
    | cons p ps ih =>
      have hp : (p.1 == key) = false := by
        cases hb : (p.1 == key) with
        | false => rfl
        | true => exact absurd (by simp [List.any_cons, hb]) h
      have hps : ¬ ps.any (fun q => q.1 == key) = true := by
        intro hc
        exact h (by simp [List.any_cons, hc])
      simpa [List.find?, hp] using ih hps

/-- Dichotomy for one milestone check: either every firing condition holds
(configured webhook, strict crossing into a positive bucket, successful
delivery) and the result is a delivered notification with
`last_notified := spent`, or some condition fails and the call is a no-op
returning false. -/
theorem check_milestone_cases (d : BudgetsData) (notif : List (String × ℕ))
    (key : String) (spent limit : ℕ) (ok : Bool) :
    (check_milestone_notification d notif key spent limit ok =
        ⟨update_budget_notification notif key spent, true⟩ ∧
      webhookPresent (get_webhook_for_key d key) = true ∧ ok = true ∧
      milestone_of d.milestone_interval ((get_budget_notification notif key).getD 0) <
        milestone_of d.milestone_interval spent ∧
      0 < milestone_of d.milestone_interval spent) ∨
    (check_milestone_notification d notif key spent limit ok = ⟨notif, false⟩ ∧
      ¬(webhookPresent (get_webhook_for_key d key) = true ∧ ok = true ∧
        milestone_of d.milestone_interval ((get_budget_notification notif key).getD 0) <
          milestone_of d.milestone_interval spent ∧
        0 < milestone_of d.milestone_interval spent)) := by
  unfold check_milestone_notification send_discord_notification
  by_cases hw : webhookPresent (get_webhook_for_key d key)
  · by_cases hcross :
      milestone_of d.milestone_interval ((get_budget_notification notif key).getD 0) <
        milestone_of d.milestone_interval spent
    · by_cases hpos : 0 < milestone_of d.milestone_interval spent
      · cases ok with
        | true => exact Or.inl ⟨by simp [hw, hcross, hpos], hw, rfl, hcross, hpos⟩
        | false =>
          refine Or.inr ⟨by simp [hw, hcross, hpos], ?_⟩
          rintro ⟨-, hok, -, -⟩
          exact Bool.false_ne_true hok
      · refine Or.inr ⟨by simp [hw, hcross, hpos], ?_⟩
        rintro ⟨-, -, -, h4⟩
        exact hpos h4
    · refine Or.inr ⟨by simp [hw, hcross], ?_⟩
      rintro ⟨-, -, h3, -⟩
      exact hcross h3
  · refine Or.inr ⟨by simp [hw], ?_⟩
    rintro ⟨h1, -, -, -⟩
    exact hw h1

/-- Appending pass sequences composes the counts and threads the state. -/
theorem run_passes_append (d : BudgetsData) (key : String) (limit : ℕ)
    (ok : Bool) (ts1 : List ℕ) :
    ∀ (notif : List (String × ℕ)) (ts2 : List ℕ),
      run_milestone_passes d key limit ok notif (ts1 ++ ts2) =
        ((run_milestone_passes d key limit ok notif ts1).1 +
            (run_milestone_passes d key limit ok
              (run_milestone_passes d key limit ok notif ts1).2 ts2).1,
          (run_milestone_passes d key limit ok
            (run_milestone_passes d key limit ok notif ts1).2 ts2).2) := by
  induction ts1 with
  | nil => intro notif ts2; simp [run_milestone_passes]
  | cons t ts ih =>
    intro notif ts2
    simp only [List.cons_append, run_milestone_passes, List.append_eq, ih, Nat.add_assoc]

/-- Passes whose totals never leave the already-notified bucket fire
nothing and leave the stored state untouched. -/
theorem run_passes_no_crossing (d : BudgetsData) (key : String) (limit : ℕ)
    (ok : Bool) (ts : List ℕ) :
    ∀ (notif : List (String × ℕ)),
      (∀ t ∈ ts, milestone_of d.milestone_interval t ≤
        milestone_of d.milestone_interval ((get_budget_notification notif key).getD 0)) →
      run_milestone_passes d key limit ok notif ts = (0, notif) := by
  induction ts with
  | nil => intro notif _; rfl
  | cons t ts ih =>
    intro notif h
    have hno : check_milestone_notification d notif key t limit ok = ⟨notif, false⟩ := by
      rcases check_milestone_cases d notif key t limit ok with ⟨-, -, -, hcross, -⟩ | ⟨heq, -⟩
      · exact absurd hcross (not_lt.mpr (h t (List.mem_cons_self t ts)))
      · exact heq
    simp only [run_milestone_passes, hno]
    simp [ih notif (fun x hx => h x (List.mem_cons_of_mem t hx))]

/-- A pass sequence that starts with a strict crossing into a positive
bucket and stays in that bucket fires exactly once, persisting the first
total. -/
theorem run_passes_one_bucket (d : BudgetsData) (key : String) (limit : ℕ)
    (t : ℕ) (ts : List ℕ) (notif : List (String × ℕ))
    (hw : webhookPresent (get_webhook_for_key d key) = true)
    (hall : ∀ x ∈ ts, milestone_of d.milestone_interval x =
      milestone_of d.milestone_interval t)
    (hcross : milestone_of d.milestone_interval ((get_budget_notification notif key).getD 0) <
      milestone_of d.milestone_interval t)
    (hpos : 0 < milestone_of d.milestone_interval t) :
    run_milestone_passes d key limit true notif (t :: ts) =
      (1, update_budget_notification notif key t) := by
  have hfire : check_milestone_notification d notif key t limit true =
      ⟨update_budget_notification notif key t, true⟩ := by
    rcases check_milestone_cases d notif key t limit true with ⟨heq, -⟩ | ⟨-, hn⟩
    · exact heq
    · exact absurd ⟨hw, rfl, hcross, hpos⟩ hn
  have hrest : run_milestone_passes d key limit true
      (update_budget_notification notif key t) ts =
      (0, update_budget_notification notif key t) := by
    refine run_passes_no_crossing d key limit true ts _ (fun x hx => ?_)
    rw [get_update_budget_notification_self]
    exact le_of_eq (hall x hx)
  simp only [run_milestone_passes, hfire, hrest]
  simp

/-! ### C3: milestone crossing semantics and per-bucket deduplication -/

/-- **C3.** With a configured webhook and successful delivery: a milestone
notification fires on a pass iff the current total's bucket strictly
exceeds the last-notified bucket and is positive, in which case
`last_notified` is persisted as the current total (an unfired pass leaves
the state untouched); consequently a run of passes whose totals first sit
in bucket B1 and then in bucket B2 with 0 < B1 < B2, starting below B1,
fires exactly two notifications in total. -/
theorem milestone_dedup (d : BudgetsData) (notif : List (String × ℕ))
    (key : String) (spent limit : ℕ)
    (hw : webhookPresent (get_webhook_for_key d key) = true) :
    (((check_milestone_notification d notif key spent limit true).ret = true ↔
        milestone_of d.milestone_interval ((get_budget_notification notif key).getD 0) <
          milestone_of d.milestone_interval spent ∧
        0 < milestone_of d.milestone_interval spent) ∧
      ((check_milestone_notification d notif key spent limit true).ret = true →
        get_budget_notification
          (check_milestone_notification d notif key spent limit true).notif key =
          some spent) ∧
      ((check_milestone_notification d notif key spent limit true).ret = false →
        (check_milestone_notification d notif key spent limit true).notif = notif)) ∧
    (∀ (a b : ℕ) (as bs : List ℕ),
      (∀ t ∈ as, milestone_of d.milestone_interval t = milestone_of d.milestone_interval a) →
      (∀ t ∈ bs, milestone_of d.milestone_interval t = milestone_of d.milestone_interval b) →
      milestone_of d.milestone_interval ((get_budget_notification notif key).getD 0) <
        milestone_of d.milestone_interval a →
      milestone_of d.milestone_interval a < milestone_of d.milestone_interval b →
      0 < milestone_of d.milestone_interval a →
      (run_milestone_passes d key limit true notif ((a :: as) ++ (b :: bs))).1 = 2) := by
  constructor
  · rcases check_milestone_cases d notif key spent limit true with
      ⟨heq, -, -, hcross, hpos⟩ | ⟨heq, hn⟩
    · refine ⟨⟨fun _ => ⟨hcross, hpos⟩, fun _ => by rw [heq]⟩, fun _ => ?_, fun hf => ?_⟩
      · rw [heq]
        exact get_update_budget_notification_self notif key spent
      · rw [heq] at hf
        exact absurd hf (by simp)
    · refine ⟨⟨fun hr => ?_, fun hc => ?_⟩, fun hr => ?_, fun _ => by rw [heq]⟩
      · rw [heq] at hr
        exact absurd hr (by simp)
      · exact absurd ⟨hw, rfl, hc.1, hc.2⟩ hn
      · rw [heq] at hr
        exact absurd hr (by simp)
  · intro a b as bs has hbs hcross hab hpos
    have h1 := run_passes_one_bucket d key limit a as notif hw has hcross hpos
    have h2 := run_passes_one_bucket d key limit b bs
      (update_budget_notification notif key a) hw hbs
      (by rw [get_update_budget_notification_self]; exact hab)
      (lt_trans hpos hab)
    rw [run_passes_append, h1, h2]
    rfl

/-- Witness for C3: with interval $20 (2000 cents), totals
2500, 2700 (bucket 2000) then 4100, 4300 (bucket 4000), starting from an
empty notification table: the first pass fires, and the four passes fire
exactly twice overall. -/
theorem milestone_dedup_witness :
    (check_milestone_notification dMile [] "k" 2500 50000 true).ret = true ∧
    (run_milestone_passes dMile "k" 50000 true [] ([2500, 2700] ++ [4100, 4300])).1 = 2 := by
  constructor
  · exact ((milestone_dedup dMile [] "k" 2500 50000 (by decide)).1.1).mpr (by decide)
  · exact (milestone_dedup dMile [] "k" 2500 50000 (by decide)).2 2500 4100 [2700] [4300]
      (by decide) (by decide) (by decide) (by decide) (by decide)

/-! ### C4 and C10: over-budget notification interplay -/

/-- **C4 counterexample.** The claim's own scenario — limit $100, interval
$20, spend crossing 9500 → 11500 cents in one pass, webhook configured,
delivery succeeding, one active machine on the key: the milestone
notification fires (with over-budget severity), but the separate
over-budget notification is NOT attempted in that pass, because the
milestone check has already persisted `last_notified = 11500 ≥ limit`.
One notification fires, not two. -/
theorem single_notification_on_limit_crossing :
    (enforce_budget_for_key dAlice [("alice", 9500)] "alice" 11500 [instAlice] true
      (fun _ => true)).milestone_fired = true ∧
    (enforce_budget_for_key dAlice [("alice", 9500)] "alice" 11500 [instAlice] true
      (fun _ => true)).overbudget_attempted = false := by
  constructor <;> decide

/-- **C4 (amended).** On a pass that crosses a milestone bucket while
going over budget, exactly one notification fires: the milestone
notification (over-budget severity), whose persisted
`last_notified = total ≥ limit` suppresses the separate over-budget
notification in the same pass; more generally a delivered milestone
notification always suppresses the over-budget one, and once
`last_notified ≥ limit` the over-budget notification stays suppressed on
subsequent passes (until an external reset). -/
theorem overbudget_notification_suppression (d : BudgetsData)
    (notif : List (String × ℕ)) (key : String) (spent : ℕ)
    (active : List InstRow) (deliver_ok : Bool) (term_ok : String → Bool) :
    ((enforce_budget_for_key d notif key spent active deliver_ok term_ok).milestone_fired = true →
      (enforce_budget_for_key d notif key spent active deliver_ok term_ok).overbudget_attempted = false) ∧
    (get_limit_for_key d key ≤ (get_budget_notification notif key).getD 0 →
      (enforce_budget_for_key d notif key spent active deliver_ok term_ok).overbudget_attempted = false) ∧
    (deliver_ok = true →
      webhookPresent (get_webhook_for_key d key) = true →
      milestone_of d.milestone_interval ((get_budget_notification notif key).getD 0) <
        milestone_of d.milestone_interval spent →
      0 < milestone_of d.milestone_interval spent →
      get_limit_for_key d key < spent →
      (active.filter (fun i => i.ssh_key_names.contains key)).isEmpty = false →
      (enforce_budget_for_key d notif key spent active deliver_ok term_ok).milestone_fired = true ∧
      (enforce_budget_for_key d notif key spent active deliver_ok term_ok).overbudget_attempted = false) := by
  by_cases hsp : spent ≤ get_limit_for_key d key
  · refine ⟨fun _ => ?_, fun _ => ?_, fun _ _ _ _ hover _ => absurd hsp (not_le.mpr hover)⟩ <;>
      · unfold enforce_budget_for_key
        rw [if_pos hsp]
  · by_cases hemp : (active.filter (fun i => i.ssh_key_names.contains key)).isEmpty
    · refine ⟨fun _ => ?_, fun _ => ?_, fun _ _ _ _ _ hne => ?_⟩
      · unfold enforce_budget_for_key
        rw [if_neg hsp, if_pos hemp]
      · unfold enforce_budget_for_key
        rw [if_neg hsp, if_pos hemp]
      · rw [hne] at hemp
        exact absurd hemp (by simp)
    · rcases check_milestone_cases d notif key spent (get_limit_for_key d key) deliver_ok with
        ⟨heq, hw, hok, hcross, hpos⟩ | ⟨heq, hn⟩
      · have hob : (webhookPresent (get_webhook_for_key d key) &&
            decide (((get_budget_notification
              (update_budget_notification notif key spent) key).getD 0) <
                get_limit_for_key d key)) = false := by
          rw [get_update_budget_notification_self]
          simp [not_lt.mpr (le_of_not_le hsp)]
        refine ⟨fun _ => ?_, fun _ => ?_, fun _ _ _ _ _ _ => ⟨?_, ?_⟩⟩ <;>
          · unfold enforce_budget_for_key
            rw [if_neg hsp, if_neg hemp]
            simp [heq, hob]
      · have hret : (check_milestone_notification d notif key spent
            (get_limit_for_key d key) deliver_ok).ret = false := by
          rw [heq]
        refine ⟨fun hf => ?_, fun hlim => ?_, fun hok hw hcross hpos _ _ => ?_⟩
        · have h2 := hf
          unfold enforce_budget_for_key at h2
          rw [if_neg hsp, if_neg hemp] at h2
          simp [hret] at h2
        · unfold enforce_budget_for_key
          rw [if_neg hsp, if_neg hemp]
          simp only [heq]
          simp [not_lt.mpr hlim]
        · exact absurd ⟨hw, hok, hcross, hpos⟩ hn

/-- Witness for the amended C4: the claim's concrete scenario, via the
crossing-pass clause of the theorem. -/
theorem overbudget_notification_suppression_witness :
    (enforce_budget_for_key dAlice [("alice", 9500)] "alice" 11500 [instAlice] true
      (fun _ => true)).milestone_fired = true ∧
    (enforce_budget_for_key dAlice [("alice", 9500)] "alice" 11500 [instAlice] true
      (fun _ => true)).overbudget_attempted = false :=
  (overbudget_notification_suppression dAlice [("alice", 9500)] "alice" 11500 [instAlice]
    true (fun _ => true)).2.2 rfl (by decide) (by decide) (by decide) (by decide) (by decide)

/-- **C10 counterexample.** Limit $90, interval $20, `last_notified` 8100,
spend 9100 (no milestone crossing: both sit in bucket 8000), webhook
configured, every delivery failing, one active machine on the key: the
pass still persists `last_notified := 9100`, so the stored notification
state is NOT left unchanged on delivery failure. -/
theorem overbudget_state_update_on_failed_delivery :
    (enforce_budget_for_key dNinety [("k", 8100)] "k" 9100 [instW] false
      (fun _ => true)).notif = [("k", 9100)] ∧
    (enforce_budget_for_key dNinety [("k", 8100)] "k" 9100 [instW] false
      (fun _ => true)).milestone_fired = false := by
  constructor <;> decide

/-- **C10 (amended).** Within `check_milestone_notification`, the stored
level is updated only on a delivered crossing: no webhook means a no-op,
failed delivery leaves the state unchanged (so that crossing is retried
next pass), and a fired notification persists `last_notified := spent`.
The over-budget branch of `enforce_budget_for_key`, however, persists
`last_notified := spent` whenever it attempts the one-shot over-budget
notification, regardless of the delivery outcome. -/
theorem notification_state_update_policy (d : BudgetsData)
    (notif : List (String × ℕ)) (key : String) (spent limit : ℕ)
    (active : List InstRow) (term_ok : String → Bool) :
    (∀ ok : Bool, webhookPresent (get_webhook_for_key d key) = false →
      check_milestone_notification d notif key spent limit ok = ⟨notif, false⟩) ∧
    (check_milestone_notification d notif key spent limit false = ⟨notif, false⟩) ∧
    (∀ ok : Bool, (check_milestone_notification d notif key spent limit ok).ret = true →
      (check_milestone_notification d notif key spent limit ok).notif =
        update_budget_notification notif key spent) ∧
    (∀ deliver_ok : Bool,
      (enforce_budget_for_key d notif key spent active deliver_ok term_ok).milestone_fired = false →
      (enforce_budget_for_key d notif key spent active deliver_ok term_ok).overbudget_attempted = true →
      (enforce_budget_for_key d notif key spent active deliver_ok term_ok).notif =
        update_budget_notification notif key spent) := by
  refine ⟨fun ok hw => ?_, ?_, fun ok hr => ?_, fun deliver_ok hmf hob => ?_⟩
  · rcases check_milestone_cases d notif key spent limit ok with ⟨-, hw2, -⟩ | ⟨heq, -⟩
    · rw [hw] at hw2
      exact absurd hw2 (by simp)
    · exact heq
  · rcases check_milestone_cases d notif key spent limit false with ⟨-, -, hok, -⟩ | ⟨heq, -⟩
    · exact absurd hok (by simp)
    · exact heq
  · rcases check_milestone_cases d notif key spent limit ok with ⟨heq, -⟩ | ⟨heq, -⟩
    · rw [heq]
    · rw [heq] at hr
      exact absurd hr (by simp)
  · by_cases hsp : spent ≤ get_limit_for_key d key
    · have h2 := hob
      unfold enforce_budget_for_key at h2
      rw [if_pos hsp] at h2
      simp at h2
    · by_cases hemp : (active.filter (fun i => i.ssh_key_names.contains key)).isEmpty
      · have h2 := hob
        unfold enforce_budget_for_key at h2
        rw [if_neg hsp, if_pos hemp] at h2
        simp at h2
      · have hnotif : (check_milestone_notification d notif key spent
            (get_limit_for_key d key) deliver_ok).notif = notif := by
          rcases check_milestone_cases d notif key spent (get_limit_for_key d key) deliver_ok with
            ⟨heq, -⟩ | ⟨heq, -⟩
          · have h2 := hmf
            unfold enforce_budget_for_key at h2
            rw [if_neg hsp, if_neg hemp] at h2
            simp [heq] at h2
          · rw [heq]
        have hob2 := hob
        unfold enforce_budget_for_key at hob2 ⊢
        rw [if_neg hsp, if_neg hemp] at hob2 ⊢
        simp only [hnotif] at hob2 ⊢
        rw [if_pos hob2]

/-- Witness for the amended C10: failed delivery leaves the table
untouched in the milestone check, while the concrete over-budget pass of
the counterexample persists 9100 through the enforcement branch. -/
theorem notification_state_update_policy_witness :
    (check_milestone_notification dNinety [("k", 8100)] "k" 9100 9000 false =
      ⟨[("k", 8100)], false⟩) ∧
    (enforce_budget_for_key dNinety [("k", 8100)] "k" 9100 [instW] false
      (fun _ => true)).notif = update_budget_notification [("k", 8100)] "k" 9100 :=
  ⟨(notification_state_update_policy dNinety [("k", 8100)] "k" 9100 9000 [instW]
      (fun _ => true)).2.1,
    (notification_state_update_policy dNinety [("k", 8100)] "k" 9100 9000 [instW]
      (fun _ => true)).2.2.2 false (by decide) (by decide)⟩

/-! ### C8: upsert frame conditions -/

/-- `find?` locates exactly the row just written by `upsertRow`. -/
theorem find_upsertRow_self (l : List InstRow) (r : InstRow) :
    (upsertRow r l).find? (fun x => x.id == r.id) = some r := by
  induction l with
  | nil => simp [upsertRow, List.find?]
  | cons x xs ih =>
    by_cases hx : (x.id == r.id) = true
    · simp [upsertRow, hx, List.find?]
    · have hx' : (x.id == r.id) = false := by
        cases hb : (x.id == r.id) with
        | false => rfl
        | true => exact absurd hb hx
      simp [upsertRow, hx', List.find?_cons, ih]

/-- **C8.** Upserting an observation whose id already exists preserves the
stored `first_seen` and init flag and overwrites every other column from
the observation (with `last_seen := now`); upserting an unseen id stores
`first_seen := now` with the init flag unset. -/
theorem upsert_frame (st : DbState) (now : ℚ) (inst : ApiInstance)
    (acct : Option String) :
    (∀ r, st.insts.find? (fun x => x.id == inst.id) = some r →
      (upsert_instance st now inst acct).insts.find? (fun x => x.id == inst.id) =
        some { id := inst.id, name := inst.name, ip := inst.ip,
               private_ip := inst.private_ip, status := inst.status,
               hostname := inst.hostname, region := inst.region_name,
               itype := inst.itype_name, gpu_count := inst.itype_gpus,
               hourly_cost_cents := inst.itype_price_cents,
               ssh_key_names := inst.ssh_key_names, first_seen := r.first_seen,
               last_seen := now, init_flag := r.init_flag, account := acct }) ∧
    (st.insts.find? (fun x => x.id == inst.id) = none →
      (upsert_instance st now inst acct).insts.find? (fun x => x.id == inst.id) =
        some { id := inst.id, name := inst.name, ip := inst.ip,
               private_ip := inst.private_ip, status := inst.status,
               hostname := inst.hostname, region := inst.region_name,
               itype := inst.itype_name, gpu_count := inst.itype_gpus,
               hourly_cost_cents := inst.itype_price_cents,
               ssh_key_names := inst.ssh_key_names, first_seen := now,
               last_seen := now, init_flag := false, account := acct }) := by
  constructor
  · intro r hr
    unfold upsert_instance
    rw [hr]
    exact find_upsertRow_self st.insts
      ⟨inst.id, inst.name, inst.ip, inst.private_ip, inst.status, inst.hostname,
        inst.region_name, inst.itype_name, inst.itype_gpus, inst.itype_price_cents,
        inst.ssh_key_names, r.first_seen, now, r.init_flag, acct⟩
  · intro hr
    unfold upsert_instance
    rw [hr]
    exact find_upsertRow_self st.insts
      ⟨inst.id, inst.name, inst.ip, inst.private_ip, inst.status, inst.hostname,
        inst.region_name, inst.itype_name, inst.itype_gpus, inst.itype_price_cents,
        inst.ssh_key_names, now, now, false, acct⟩

/-- Witness for C8: refreshing "m1" (first seen at 100, uninitialized)
with a renamed, repriced observation keeps `first_seen = 100` and the
unset init flag while every other column takes the new values. -/
theorem upsert_frame_witness :
    (upsert_instance stW 10000 apiW (some "acct2")).insts.find? (fun x => x.id == apiW.id) =
      some ⟨"m1", some "renamed", some "10.0.0.9", none, some "active", some "h2",
        none, none, 2, 120, ["k2"], 100, 10000, false, some "acct2"⟩ :=
  (upsert_frame stW 10000 apiW (some "acct2")).1 instW (by rfl)

/-! ### C9: per-account failure isolation -/

/-- The per-account loop attempts every configured account, whatever each
outcome is, and records exactly the raising ones as failed. -/
theorem monitor_loop_spec (now : ℚ) (accounts : List AccountRun) :
    ∀ (st : DbState) (att fail : List String),
      (monitor_loop now st att fail accounts).2.1 = att ++ accounts.map (·.name) ∧
      (monitor_loop now st att fail accounts).2.2 =
        fail ++ (accounts.filter (fun a => a.outcome.isNone)).map (·.name) := by
  induction accounts with
  | nil => intro st att fail; simp [monitor_loop]
  | cons a rest ih =>
    intro st att fail
    rcases ho : a.outcome with _ | api
    · simp only [monitor_loop, ho]
      rw [(ih _ _ _).1, (ih _ _ _).2]
      simp [ho, List.filter_cons]
    · simp only [monitor_loop, ho]
      rw [(ih _ _ _).1, (ih _ _ _).2]
      simp [ho, List.filter_cons]

/-- **C9.** With at least one configured account, a monitor run attempts
every account — a raising account is recorded as failed and does not stop
the loop — and the post-account steps (SSH-config rewrite, JSON export,
sample pruning) all still execute. -/
theorem account_failure_isolation (st : DbState) (now : ℚ)
    (accounts : List AccountRun) (hne : accounts ≠ []) :
    (monitor_main st now accounts).attempted = accounts.map (·.name) ∧
    (monitor_main st now accounts).failed =
      (accounts.filter (fun a => a.outcome.isNone)).map (·.name) ∧
    (monitor_main st now accounts).ssh_updated = true ∧
    (monitor_main st now accounts).exported = true ∧
    (monitor_main st now accounts).pruned = true := by
  have hemp : accounts.isEmpty = false := by
    cases accounts with
    | nil => exact absurd rfl hne
    | cons a rest => rfl
  unfold monitor_main
  rw [hemp, if_neg Bool.false_ne_true]
  refine ⟨?_, ?_, rfl, rfl, rfl⟩
  · show (monitor_loop now st [] [] accounts).2.1 = _
    rw [(monitor_loop_spec now accounts st [] []).1]
    simp
  · show (monitor_loop now st [] [] accounts).2.2 = _
    rw [(monitor_loop_spec now accounts st [] []).2]
    simp

/-- Witness for C9: three accounts, the middle one raising — all three are
attempted, only "a2" fails, and the post steps run. -/
theorem account_failure_isolation_witness :
    (monitor_main DbState.empty 10000 accsW).attempted = ["a1", "a2", "a3"] ∧
    (monitor_main DbState.empty 10000 accsW).failed = ["a2"] ∧
    (monitor_main DbState.empty 10000 accsW).pruned = true := by
  have h := account_failure_isolation DbState.empty 10000 accsW (by simp [accsW])
  refine ⟨?_, ?_, h.2.2.2.2⟩
  · rw [h.1]
    rfl
  · rw [h.2.1]
    rfl

/-! ### C5: cost accrual lemmas -/

/-- The additive upsert adds exactly `c` to the addressed key's total. -/
theorem cost_cents_of_update_self (costs : List CostRow) (key : String)
    (c : ℕ) (now : ℚ) :
    cost_cents_of (update_cost costs key c now) key = cost_cents_of costs key + c := by
  induction costs with
  | nil => simp [update_cost, cost_cents_of, List.find?]
  | cons r rs ih =>
    by_cases hr : (r.ssh_key == key) = true
    · have hkey : (⟨r.ssh_key, r.total_cents + c, now⟩ : CostRow).ssh_key == key := hr
      simp [update_cost, hr, cost_cents_of, List.find?_cons, hkey]
    · have hr' : (r.ssh_key == key) = false := by
        cases hb : (r.ssh_key == key) with
        | false => rfl
        | true => exact absurd hb hr
      simp only [update_cost, hr', Bool.false_eq_true, if_false]
      simpa [cost_cents_of, List.find?_cons, hr'] using ih

/-- The additive upsert leaves every other key's total unchanged. -/
theorem cost_cents_of_update_other (costs : List CostRow) (k key : String)
    (c : ℕ) (now : ℚ) (hk : (k == key) = false) :
    cost_cents_of (update_cost costs k c now) key = cost_cents_of costs key := by
  induction costs with
  | nil => simp [update_cost, cost_cents_of, List.find?, hk]
  | cons r rs ih =>
    by_cases hr : (r.ssh_key == k) = true
    · have hrk : (r.ssh_key == key) = false := by
        cases hb : (r.ssh_key == key) with
        | false => rfl
        | true =>
          have hkk : k = key := (beq_iff_eq.mp hr).symm.trans (beq_iff_eq.mp hb)
          rw [hkk] at hk
          simp at hk
      simp [update_cost, hr, cost_cents_of, List.find?_cons, hrk]
    · have hr' : (r.ssh_key == k) = false := by
        cases hb : (r.ssh_key == k) with
        | false => rfl
        | true => exact absurd hb hr
      by_cases hrk : (r.ssh_key == key) = true
      · simp [update_cost, hr', cost_cents_of, List.find?_cons, hrk]
      · have hrk' : (r.ssh_key == key) = false := by
          cases hb : (r.ssh_key == key) with
          | false => rfl
          | true => exact absurd hb hrk
        simp only [update_cost, hr', Bool.false_eq_true, if_false]
        simpa [cost_cents_of, List.find?_cons, hrk'] using ih

/-- The instances whose accrual lands on `key`: active, nonzero price,
first ssh key equal to `key`. -/
def charged_to (insts : List InstRow) (key : String) : List InstRow :=
  insts.filter (fun i => i.status == some "active" &&
    !(i.hourly_cost_cents == 0) && i.ssh_key_names.head? == some key)

/-- The instances that accrue at all: active with nonzero price. -/
def accruing (insts : List InstRow) : List InstRow :=
  insts.filter (fun i => i.status == some "active" && !(i.hourly_cost_cents == 0))

/-- Per-key effect of the accrual fold: each charged instance adds the
truncated `int(hourly / 60)`. -/
theorem fold_costs_value (now : ℚ) (key : String) (insts : List InstRow) :
    ∀ (q : ℚ) (costs : List CostRow),
      cost_cents_of (insts.foldl (update_costs_step now) (q, costs)).2 key =
        cost_cents_of costs key +
          ((charged_to insts key).map
            (fun i => pyIntNat ((i.hourly_cost_cents : ℚ) / 60))).sum := by
  induction insts with
  | nil => intro q costs; simp [charged_to]
  | cons i is ih =>
    intro q costs
    by_cases hact : (i.status == some "active") = true
    · by_cases hcost : (i.hourly_cost_cents == 0) = true
      · have : update_costs_step now (q, costs) i = (q, costs) := by
          simp [update_costs_step, hact, hcost]
        rw [List.foldl_cons, this, ih]
        simp [charged_to, List.filter_cons, hact, hcost]
      · rcases hkeys : i.ssh_key_names with _ | ⟨k, ks⟩
        · have : update_costs_step now (q, costs) i =
              (q + (i.hourly_cost_cents : ℚ) / 60, costs) := by
            simp [update_costs_step, hact, hcost, hkeys]
          rw [List.foldl_cons, this, ih]
          simp [charged_to, List.filter_cons, hact, hcost, hkeys]
        · have hstep : update_costs_step now (q, costs) i =
              (q + (i.hourly_cost_cents : ℚ) / 60,
                update_cost costs k (pyIntNat ((i.hourly_cost_cents : ℚ) / 60)) now) := by
            simp [update_costs_step, hact, hcost, hkeys]
          rw [List.foldl_cons, hstep, ih]
          by_cases hk : (k == key) = true
          · have hkk : k = key := beq_iff_eq.mp hk
            subst hkk
            have hhead : (i.ssh_key_names.head? == some k) = true := by
              simp [hkeys]
            rw [cost_cents_of_update_self]
            simp [charged_to, List.filter_cons, hact, hcost, hhead, Nat.add_assoc]
          · have hk' : (k == key) = false := by
              cases hb : (k == key) with
              | false => rfl
              | true => exact absurd hb hk
            have hhead : (i.ssh_key_names.head? == some key) = false := by
              simp [hkeys]
              intro hc
              rw [hc] at hk'
              simp at hk'
            rw [cost_cents_of_update_other _ _ _ _ _ hk']
            simp [charged_to, List.filter_cons, hact, hcost, hhead]
    · have hact' : (i.status == some "active") = false := by
        cases hb : (i.status == some "active") with
        | false => rfl
        | true => exact absurd hb hact
      have : update_costs_step now (q, costs) i = (q, costs) := by
        simp [update_costs_step, hact']
      rw [List.foldl_cons, this, ih]
      simp [charged_to, List.filter_cons, hact']

/-- Running-total effect of the accrual fold: each accruing instance adds
its exact `hourly / 60`. -/
theorem fold_total_value (now : ℚ) (insts : List InstRow) :
    ∀ (q : ℚ) (costs : List CostRow),
      (insts.foldl (update_costs_step now) (q, costs)).1 =
        q + ((accruing insts).map (fun i => (i.hourly_cost_cents : ℚ) / 60)).sum := by
  induction insts with
  | nil => intro q costs; simp [accruing]
  | cons i is ih =>
    intro q costs
    by_cases hact : (i.status == some "active") = true
    · by_cases hcost : (i.hourly_cost_cents == 0) = true
      · have : update_costs_step now (q, costs) i = (q, costs) := by
          simp [update_costs_step, hact, hcost]
        rw [List.foldl_cons, this, ih]
        simp [accruing, List.filter_cons, hact, hcost]
      · have hfst : (update_costs_step now (q, costs) i).1 =
            q + (i.hourly_cost_cents : ℚ) / 60 := by
          rcases hkeys : i.ssh_key_names with _ | ⟨k, ks⟩ <;>
            simp [update_costs_step, hact, hcost, hkeys]
        have hsnd : update_costs_step now (q, costs) i =
            ((update_costs_step now (q, costs) i).1, (update_costs_step now (q, costs) i).2) := rfl
        rw [List.foldl_cons, hsnd, hfst, ih]
        simp [accruing, List.filter_cons, hact, hcost]
        ring
    · have hact' : (i.status == some "active") = false := by
        cases hb : (i.status == some "active") with
        | false => rfl
        | true => exact absurd hb hact
      have : update_costs_step now (q, costs) i = (q, costs) := by
        simp [update_costs_step, hact']
      rw [List.foldl_cons, this, ih]
      simp [accruing, List.filter_cons, hact']

/-- A fold whose step never touches the ledgers leaves them untouched. -/
theorem foldl_ledger_invariant {α : Type} (f : DbState → α → DbState)
    (h : ∀ s a, (f s a).costs = s.costs ∧ (f s a).account_costs = s.account_costs)
    (l : List α) :
    ∀ s : DbState, (l.foldl f s).costs = s.costs ∧
      (l.foldl f s).account_costs = s.account_costs := by
  induction l with
  | nil => intro s; exact ⟨rfl, rfl⟩
  | cons a as ih =>
    intro s
    rw [List.foldl_cons]
    exact ⟨((ih (f s a)).1).trans (h s a).1, ((ih (f s a)).2).trans (h s a).2⟩

/-- After the accrual step, nothing in `process_account` (initialization,
GPU sampling, disk sampling) touches the ledgers: the run's ledgers are
exactly those of `update_costs` on the upserted state — in particular they
do not depend on the remote oracle. -/
theorem process_account_ledgers (st : DbState) (now : ℚ) (api : List ApiInstance)
    (acct : String) (o : RemoteOracle) :
    (process_account st now api acct o).1.costs =
      (update_costs (api.foldl (fun s i => upsert_instance s now i (some acct)) st)
        (get_active_instances (api.foldl (fun s i => upsert_instance s now i (some acct)) st)
          (some acct)) acct now).costs ∧
    (process_account st now api acct o).1.account_costs =
      (update_costs (api.foldl (fun s i => upsert_instance s now i (some acct)) st)
        (get_active_instances (api.foldl (fun s i => upsert_instance s now i (some acct)) st)
          (some acct)) acct now).account_costs := by
  unfold process_account
  have h3 : ∀ (s : DbState) (i : InstRow),
      ((if i.ip.isSome && o.init_ok i.id then mark_init_done s i.id else s).costs = s.costs ∧
        (if i.ip.isSome && o.init_ok i.id then mark_init_done s i.id else s).account_costs =
          s.account_costs) := by
    intro s i
    by_cases hc : (i.ip.isSome && o.init_ok i.id) = true
    · rw [if_pos hc]
      exact ⟨rfl, rfl⟩
    · rw [if_neg hc]
      exact ⟨rfl, rfl⟩
  have h4 : ∀ (s : DbState) (i : InstRow),
      ((if i.ip.isNone then s
        else
          (o.storage i.id).foldl (fun t row => add_storage_sample t row)
            (((o.gpu_utils i.id).enum).foldl
              (fun t p => add_gpu_sample t i.id p.2 p.1 now) s)).costs = s.costs ∧
        (if i.ip.isNone then s
        else
          (o.storage i.id).foldl (fun t row => add_storage_sample t row)
            (((o.gpu_utils i.id).enum).foldl
              (fun t p => add_gpu_sample t i.id p.2 p.1 now) s)).account_costs =
          s.account_costs) := by
    intro s i
    by_cases hc : i.ip.isNone = true
    · rw [if_pos hc]
      exact ⟨rfl, rfl⟩
    · rw [if_neg hc]
      have hg := foldl_ledger_invariant (fun t p => add_gpu_sample t i.id p.2 p.1 now)
        (fun _ _ => ⟨rfl, rfl⟩) ((o.gpu_utils i.id).enum) s
      have hs := foldl_ledger_invariant (fun t row => add_storage_sample t row)
        (fun _ _ => ⟨rfl, rfl⟩) (o.storage i.id)
        (((o.gpu_utils i.id).enum).foldl (fun t p => add_gpu_sample t i.id p.2 p.1 now) s)
      exact ⟨hs.1.trans hg.1, hs.2.trans hg.2⟩
  have hInit := foldl_ledger_invariant _ h3
    (get_uninit_instances
      (update_costs (api.foldl (fun s i => upsert_instance s now i (some acct)) st)
        (get_active_instances (api.foldl (fun s i => upsert_instance s now i (some acct)) st)
          (some acct)) acct now) (some acct))
  have hSamp := foldl_ledger_invariant _ h4
    (get_active_instances (api.foldl (fun s i => upsert_instance s now i (some acct)) st)
      (some acct))
  constructor
  · exact (hSamp _).1.trans ((hInit _).1)
  · exact (hSamp _).2.trans ((hInit _).2)

/-- **C5 (amended).** One reconciliation tick accrues, for each active
machine with a nonzero hourly price: `int(hourly / 60)` cents onto its
first ssh key's ledger (machines sharing a first key each contribute), and
the account ledger gains `int` of the exact sum of the per-machine
`hourly / 60` quantities when that sum is positive; the resulting ledgers
are independent of the remote-sampling and initialization oracle — cost
accrual does not depend on SSH reachability. -/
theorem cost_accrual_per_tick (st : DbState) (insts : List InstRow)
    (acct : String) (now : ℚ) (key : String) :
    (cost_cents_of (update_costs st insts acct now).costs key =
      cost_cents_of st.costs key +
        ((charged_to insts key).map
          (fun i => pyIntNat ((i.hourly_cost_cents : ℚ) / 60))).sum) ∧
    (cost_cents_of (update_costs st insts acct now).account_costs acct =
      cost_cents_of st.account_costs acct +
        (if 0 < ((accruing insts).map (fun i => (i.hourly_cost_cents : ℚ) / 60)).sum
         then pyIntNat (((accruing insts).map (fun i => (i.hourly_cost_cents : ℚ) / 60)).sum)
         else 0)) ∧
    (∀ (api : List ApiInstance) (o1 o2 : RemoteOracle),
      (process_account st now api acct o1).1.costs =
        (process_account st now api acct o2).1.costs ∧
      (process_account st now api acct o1).1.account_costs =
        (process_account st now api acct o2).1.account_costs) := by
  refine ⟨?_, ?_, ?_⟩
  · show cost_cents_of (insts.foldl (update_costs_step now) (0, st.costs)).2 key = _
    exact fold_costs_value now key insts 0 st.costs
  · show cost_cents_of
      (if 0 < (insts.foldl (update_costs_step now) (0, st.costs)).1
       then update_account_cost st.account_costs acct
         (pyIntNat (insts.foldl (update_costs_step now) (0, st.costs)).1) now
       else st.account_costs) acct = _
    rw [fold_total_value now insts 0 st.costs, zero_add]
    by_cases hpos :
        0 < ((accruing insts).map (fun i => (i.hourly_cost_cents : ℚ) / 60)).sum
    · rw [if_pos hpos, if_pos hpos]
      exact cost_cents_of_update_self st.account_costs acct _ now
    · rw [if_neg hpos, if_neg hpos, Nat.add_zero]
  · intro api o1 o2
    constructor
    · exact (process_account_ledgers st now api acct o1).1.trans
        (process_account_ledgers st now api acct o2).1.symm
    · exact (process_account_ledgers st now api acct o1).2.trans
        (process_account_ledgers st now api acct o2).2.symm

/-- Full evaluation of one reconciliation tick on a fresh database: the
machine row, one idle GPU sample, and one cent on the key and the
account (⌊90/60⌋ = 1). -/
theorem stTick_eval :
    stTick = ⟨[rowTick], [⟨"i1", 0, 0, 5000⟩], [], [⟨"k", 1, 5000⟩], [⟨"acct", 1, 5000⟩], []⟩ := by
  unfold stTick process_account
  norm_num [DbState.empty, api90, oracle90, rowTick, upsert_instance, upsertRow,
    get_active_instances, get_uninit_instances, update_costs, update_costs_step,
    update_cost, update_account_cost, pyIntNat, pyInt, mark_init_done, add_gpu_sample,
    add_storage_sample, List.foldl, List.filter, List.find?, List.enum, List.enumFrom]

/-- **C5 counterexample.** A $0.90/h active machine accrues 1 cent per
tick (`int(90 / 60)`), not the exact 90/60 = 1.5 cents the claim
states — the per-tick ledger increment is the truncation of
hourly-price ÷ 60, not hourly-price ÷ 60 itself. -/
theorem cost_increment_truncated :
    rowTick.hourly_cost_cents = 90 ∧
    cost_cents_of stTick.costs "k" = 1 ∧
    ((rowTick.hourly_cost_cents : ℚ) / 60) ≠ ((cost_cents_of stTick.costs "k" : ℕ) : ℚ) := by
  refine ⟨rfl, ?_, ?_⟩
  · rw [stTick_eval]
    rfl
  · rw [stTick_eval]
    norm_num [rowTick, cost_cents_of, List.find?]

/-- **C6 counterexample.** After the same single tick, the usage-since-0
query reports 90 × 1 / 60 = 1.5 cents for key "k" while the all-time
ledger holds 1 cent: the usage query exceeds the ledger total, so the
claimed ≤ bound is false. -/
theorem usage_exceeds_ledger :
    usage_cost_cents stTick 0 "k" = 3 / 2 ∧
    cost_cents_of stTick.costs "k" = 1 ∧
    ¬(usage_cost_cents stTick 0 "k" ≤ ((cost_cents_of stTick.costs "k" : ℕ) : ℚ)) := by
  have h1 : usage_cost_cents stTick 0 "k" = 3 / 2 := by
    rw [stTick_eval]
    norm_num [usage_cost_cents, ssh_key_of, inst_minutes, distinct_points, rowTick,
      List.filter, List.dedup, List.countP, List.countP.go]
  have h2 : cost_cents_of stTick.costs "k" = 1 := by
    rw [stTick_eval]
    rfl
  refine ⟨h1, h2, ?_⟩
  rw [h1, h2]
  norm_num

/-- **C6 (amended).** The usage-since-T query is a pure read of the
sample and instance tables: ledger and notification-state writes do not
change its value (so re-evaluating it over the same stored samples always
returns the same value), and neither do samples timestamped at or before
T; but its value is not in general bounded by the all-time ledger total. -/
theorem usage_query_stability (st : DbState) (since : ℚ) (key k : String)
    (c : ℕ) (now : ℚ) (extra : List Sample)
    (hextra : ∀ s ∈ extra, s.timestamp ≤ since) :
    usage_cost_cents { st with costs := update_cost st.costs k c now } since key =
      usage_cost_cents st since key ∧
    usage_cost_cents { st with account_costs := update_account_cost st.account_costs k c now } since key =
      usage_cost_cents st since key ∧
    usage_cost_cents { st with notif := update_budget_notification st.notif k c } since key =
      usage_cost_cents st since key ∧
    usage_cost_cents { st with gpu_samples := st.gpu_samples ++ extra } since key =
      usage_cost_cents st since key := by
  refine ⟨rfl, rfl, rfl, ?_⟩
  · have hdp : distinct_points { st with gpu_samples := st.gpu_samples ++ extra } since =
        distinct_points st since := by
      unfold distinct_points
      show (((st.gpu_samples ++ extra).filter _).map _).dedup = _
      rw [List.filter_append]
      have hnil : extra.filter (fun s => decide (since < s.timestamp)) = [] := by
        rw [List.filter_eq_nil_iff]
        intro a ha
        simp [not_lt.mpr (hextra a ha)]
      rw [hnil, List.append_nil]
    have hm : ∀ iid, inst_minutes { st with gpu_samples := st.gpu_samples ++ extra } since iid =
        inst_minutes st since iid := by
      intro iid
      unfold inst_minutes
      rw [hdp]
    unfold usage_cost_cents
    simp only [hm]

/-- Witness for the amended C6: on the one-tick state, appending a sample
timestamped at the window boundary leaves the usage value unchanged. -/
theorem usage_query_stability_witness :
    usage_cost_cents { stTick with gpu_samples := stTick.gpu_samples ++ [⟨"i1", 0, 0, 0⟩] } 0 "k" =
      usage_cost_cents stTick 0 "k" :=
  (usage_query_stability stTick 0 "k" "other" 5 6000 [⟨"i1", 0, 0, 0⟩]
    (by
      intro s hs
      rw [List.mem_singleton] at hs
      subst hs
      norm_num)).2.2.2

end HeronInfra
